import Mathlib

set_option linter.unusedVariables false

namespace SeekingHttp

/-- Errors returned by the Go code: io.EOF, the two errors.New values in Seek and
Size, os.ErrInvalid, a URL parse failure from newReq, and opaque transport errors
(identified by a numeric code) produced by the pluggable HTTP client or the
response body. -/
inductive GoError where
  | eof
  | notImplYet
  | errInvalid
  | noContentLength
  | urlParseError
  | transportError (code : Nat)
  deriving DecidableEq, Repr

/-- An outgoing HTTP request: the method and the optional Range header, the only
request parts the code varies (newReq fixes everything else). -/
structure Request where
  method : String
  rangeHeader : Option String
  deriving DecidableEq, Repr

/-- An HTTP response as the Go code consumes it: status code, the bytes the body
delivers before its terminal signal, the terminal signal itself (some eof is a
clean end of body; some other error is a mid-body transport failure; none is a
clean end too), the error Body.Close returns, and the ContentLength field used
by Size (negative means absent). -/
structure Response where
  statusCode : Nat
  body : List Nat
  bodyErr : Option GoError
  closeErr : Option GoError
  contentLength : Int
  deriving DecidableEq, Repr

/-- Result of HttpClient.Do: a response or a transport error. -/
inductive DoResult where
  | ok (resp : Response)
  | fail (e : GoError)
  deriving DecidableEq, Repr

/-- The pluggable HTTP client capability (interface HttpClient). -/
def Transport : Type := Request → DoResult

/-- The SeekingHTTP struct. urlOk models whether the URL string parses;
urlParsed models s.url != nil (the parse is cached after the first success).
offset is the read cursor, last/lastOffset the single-slot cache, hasLogger
whether s.Logger != nil. -/
structure SeekingHTTP where
  urlOk : Bool
  urlParsed : Bool
  offset : Int
  last : Option (List Nat)
  lastOffset : Int
  hasLogger : Bool
  deriving DecidableEq, Repr

/-- New: fresh reader, cursor 0, no cache, no logger, URL not yet parsed. -/
def New (urlOk : Bool) : SeekingHTTP :=
  { urlOk := urlOk, urlParsed := false, offset := 0, last := none,
    lastOffset := 0, hasLogger := false }

/-- newReq: parse the URL lazily on first use; afterwards always succeed. -/
def newReq (s : SeekingHTTP) : Except GoError (SeekingHTTP × Request) :=
  if s.urlParsed then Except.ok (s, { method := "GET", rangeHeader := none })
  else if s.urlOk then
    Except.ok ({ s with urlParsed := true }, { method := "GET", rangeHeader := none })
  else Except.error GoError.urlParseError

/-- fmtRange(from, l): the Range header value bytes=from-to with inclusive to. -/
def fmtRange (f l : Int) : String :=
  let to_ : Int := if l = 0 then f else f + (l - 1)
  "bytes=" ++ toString f ++ "-" ++ toString to_

/-- Go's copy(dst, src): overwrite the first min(len dst, len src) entries of dst
with those of src, keep the rest of dst. -/
def goCopy (dst src : List Nat) : List Nat :=
  let k := min dst.length src.length
  src.take k ++ dst.drop k

/-- The observable outcome of ReadAt or Read: the struct state after the call,
the caller's buffer contents after the call, the returned count and error, the
HTTP requests issued during the call, and the log lines emitted. -/
structure ReadAtResult where
  state : SeekingHTTP
  buf : List Nat
  n : Nat
  err : Option GoError
  issued : List Request
  log : List String
  deriving DecidableEq, Repr

/-- The cache-miss tail of ReadAt (source lines 113-188): build the request, set
the Range header for wanted = max(len buf, 1 MiB) bytes, create or reset the
cache, do the GET, and on 200/206 load the body into the cache (ReadFrom appends
the delivered bytes and filters a clean io.EOF to nil), record lastOffset, and
copy min(body, buf) bytes out; the deferred Body.Close may replace a nil error
with its own. -/
def readAtMiss (tr : Transport) (s : SeekingHTTP) (buf : List Nat) (off : Int)
    (log0 : List String) : ReadAtResult :=
  match newReq s with
  | Except.error e => ⟨s, buf, 0, some e, [], log0⟩
  | Except.ok (s1, req0) =>
    let wanted : Nat := if 1024 * 1024 < buf.length then buf.length else 1024 * 1024
    let rng : String := fmtRange off (wanted : Int)
    let req : Request := { req0 with rangeHeader := some rng }
    let s2 : SeekingHTTP := { s1 with last := some [] }
    let log1 : List String :=
      log0 ++ (if s.hasLogger then ["Start HTTP GET with Range: " ++ rng] else [])
    -- s.init() sits here in the source; it only fills in a default client and never fails
    match tr req with
    | DoResult.fail e => ⟨s2, buf, 0, some e, [req], log1⟩
    | DoResult.ok resp =>
      let log2 : List String :=
        log1 ++ (if s.hasLogger then ["Response status: " ++ toString resp.statusCode] else [])
      if resp.statusCode = 200 ∨ resp.statusCode = 206 then
        let s3 : SeekingHTTP := { s2 with last := some resp.body }
        let rfErr : Option GoError :=
          match resp.bodyErr with
          | some GoError.eof => none
          | e => e
        match rfErr with
        | some e => ⟨s3, buf, 0, some e, [req], log2⟩
        | none =>
          let s4 : SeekingHTTP := { s3 with lastOffset := off }
          let n : Nat := if resp.body.length < buf.length then resp.body.length else buf.length
          let buf1 : List Nat := goCopy buf resp.body
          let err2 : Option GoError :=
            if rfErr = some GoError.eof ∧ n = buf.length then none else rfErr
          let errFinal : Option GoError :=
            match err2 with
            | none => resp.closeErr
            | some e => some e
          ⟨s4, buf1, n, errFinal, [req],
            log2 ++ (if s.hasLogger then ["loaded into last"] else [])⟩
      else ⟨s2, buf, 0, some GoError.eof, [req], log2⟩

/-- The cache-miss log line (source lines 105-111). -/
def missLog (s : SeekingHTTP) : List String :=
  if s.hasLogger then
    [match s.last with
     | some _ => "cache miss: range is NOT within cache"
     | none => "cache miss: cache empty"]
  else []

/-- ReadAt (source lines 84-188): negative offsets return (0, io.EOF) at once;
a request whose whole span lies inside the cache with off strictly past
lastOffset is served from the cache; everything else goes to readAtMiss. -/
def readAt (tr : Transport) (s : SeekingHTTP) (buf : List Nat) (off : Int) : ReadAtResult :=
  let log0 : List String :=
    if s.hasLogger then
      ["ReadAt len " ++ toString buf.length ++ " off " ++ toString off]
    else []
  if off < 0 then ⟨s, buf, 0, some GoError.eof, [], log0⟩
  else
    match s.last with
    | some c =>
      if s.lastOffset < off then
        if off + (buf.length : Int) ≤ s.lastOffset + (c.length : Int) then
          let start : Nat := (off - s.lastOffset).toNat
          let stop : Nat := (off + (buf.length : Int) - s.lastOffset).toNat
          let log1 := log0 ++ (if s.hasLogger then ["cache hit"] else [])
          ⟨s, goCopy buf ((c.take stop).drop start), buf.length, none, [], log1⟩
        else readAtMiss tr s buf off (log0 ++ missLog s)
      else readAtMiss tr s buf off (log0 ++ missLog s)
    | none => readAtMiss tr s buf off (log0 ++ missLog s)

/-- Read (source lines 199-210): ReadAt at the cursor; on nil error advance the
cursor by the count returned. -/
def read (tr : Transport) (s : SeekingHTTP) (buf : List Nat) : ReadAtResult :=
  let log0 : List String := if s.hasLogger then ["got read len " ++ toString buf.length] else []
  let r := readAt tr s buf s.offset
  let s1 : SeekingHTTP :=
    if r.err = none then { r.state with offset := r.state.offset + (r.n : Int) } else r.state
  ⟨s1, r.buf, r.n, r.err, r.issued, log0 ++ r.log⟩

/-- Outcome of Seek: state, returned offset, error, log. -/
structure SeekResult where
  state : SeekingHTTP
  ret : Int
  err : Option GoError
  log : List String
  deriving DecidableEq, Repr

/-- Seek (source lines 213-230); whence 0 = io.SeekStart, 1 = io.SeekCurrent,
2 = io.SeekEnd. -/
def seek (s : SeekingHTTP) (offset : Int) (whence : Int) : SeekResult :=
  let log0 : List String :=
    if s.hasLogger then ["got seek " ++ toString offset ++ " " ++ toString whence] else []
  if whence = 0 then
    let s1 : SeekingHTTP := { s with offset := offset }
    ⟨s1, s1.offset, none, log0⟩
  else if whence = 1 then
    let s1 : SeekingHTTP := { s with offset := s.offset + offset }
    ⟨s1, s1.offset, none, log0⟩
  else if whence = 2 then ⟨s, 0, some GoError.notImplYet, log0⟩
  else ⟨s, 0, some GoError.errInvalid, log0⟩

/-- Outcome of Size: state, returned size, error, issued requests, log. -/
structure SizeResult where
  state : SeekingHTTP
  ret : Int
  err : Option GoError
  issued : List Request
  log : List String
  deriving DecidableEq, Repr

/-- Size (source lines 233-257): one HEAD request; a negative ContentLength is
an explicit error, never a 0 size. s.init() never fails. -/
def size (tr : Transport) (s : SeekingHTTP) : SizeResult :=
  match newReq s with
  | Except.error e => ⟨s, 0, some e, [], []⟩
  | Except.ok (s1, req0) =>
    let req : Request := { req0 with method := "HEAD" }
    match tr req with
    | DoResult.fail e => ⟨s1, 0, some e, [req], []⟩
    | DoResult.ok resp =>
      if resp.contentLength < 0 then ⟨s1, 0, some GoError.noContentLength, [req], []⟩
      else
        let log1 : List String :=
          if s.hasLogger then ["url size " ++ toString resp.contentLength] else []
        ⟨s1, resp.contentLength, none, [req], log1⟩

/-- The exact request the miss path of ReadAt issues. -/
def missRequest (off : Int) (bufLen : Nat) : Request :=
  { method := "GET",
    rangeHeader :=
      some (fmtRange off (((if 1024 * 1024 < bufLen then bufLen else 1024 * 1024 : Nat)) : Int)) }

/-- The cache-hit test of source lines 93-95 as a boolean. -/
def isCacheHit (s : SeekingHTTP) (bufLen : Nat) (off : Int) : Bool :=
  match s.last with
  | some c => decide (s.lastOffset < off ∧ off + (bufLen : Int) ≤ s.lastOffset + (c.length : Int))
  | none => false

/-- A transport is well behaved when its own error values never collide with the
io.EOF sentinel the reader uses for end of data: Do never fails with eof and
Body.Close never returns eof. (Body end-of-stream is still signalled normally
through bodyErr = some eof.) -/
def WellBehaved (tr : Transport) : Prop :=
  ∀ req, match tr req with
    | DoResult.fail e => e ≠ GoError.eof
    | DoResult.ok resp => resp.closeErr ≠ some GoError.eof

/-- The log-free part of a ReadAt outcome. -/
structure Obs where
  state : SeekingHTTP
  buf : List Nat
  n : Nat
  err : Option GoError
  issued : List Request
  deriving DecidableEq, Repr

/-- Project the log away. -/
def ReadAtResult.obs (r : ReadAtResult) : Obs :=
  ⟨r.state, r.buf, r.n, r.err, r.issued⟩

/-- Forget the logger flag of a state. -/
def stripS (s : SeekingHTTP) : SeekingHTTP :=
  { s with hasLogger := false }

/-- Forget the logger flag of the state inside an observation. -/
def Obs.strip (x : Obs) : Obs :=
  { x with state := stripS x.state }

@[simp] theorem stripS_urlOk (s : SeekingHTTP) : (stripS s).urlOk = s.urlOk := rfl

@[simp] theorem stripS_urlParsed (s : SeekingHTTP) : (stripS s).urlParsed = s.urlParsed := rfl

@[simp] theorem stripS_offset (s : SeekingHTTP) : (stripS s).offset = s.offset := rfl

@[simp] theorem stripS_last (s : SeekingHTTP) : (stripS s).last = s.last := rfl

@[simp] theorem stripS_lastOffset (s : SeekingHTTP) : (stripS s).lastOffset = s.lastOffset := rfl

theorem stripS_ext {x y : SeekingHTTP} (h1 : x.urlOk = y.urlOk) (h2 : x.urlParsed = y.urlParsed)
    (h3 : x.offset = y.offset) (h4 : x.last = y.last) (h5 : x.lastOffset = y.lastOffset) :
    stripS x = stripS y := by
  cases x
  cases y
  simp_all [stripS]

theorem goCopy_of_length_eq {dst src : List Nat} (h : src.length = dst.length) :
    goCopy dst src = src := by
  unfold goCopy
  simp [h]

theorem fmtRange_of_ne_zero {f l : Int} (h : l ≠ 0) :
    fmtRange f l = "bytes=" ++ toString f ++ "-" ++ toString (f + (l - 1)) := by
  unfold fmtRange
  simp [h]

theorem newReq_ok {s : SeekingHTTP} (h : s.urlParsed = true ∨ s.urlOk = true) :
    newReq s = Except.ok ({ s with urlParsed := true },
      { method := "GET", rangeHeader := none }) := by
  unfold newReq
  rcases hp : s.urlParsed with _ | _
  · rcases h with h | h
    · rw [hp] at h; exact absurd h (by simp)
    · simp [hp, h]
  · cases s
    simp_all

theorem newReq_fail {s : SeekingHTTP} (hp : s.urlParsed = false) (ho : s.urlOk = false) :
    newReq s = Except.error GoError.urlParseError := by
  unfold newReq
  simp [hp, ho]

theorem ifLtMin (a b : Nat) : (if a < b then a else b) = min a b := by
  rcases Nat.lt_or_ge a b with h | h
  · rw [if_pos h, Nat.min_eq_left h.le]
  · rw [if_neg (Nat.not_lt.mpr h), Nat.min_eq_right h]

/-- The outcome of the miss path as a function of what the transport answers to
the one request that path issues. -/
def missObs (tr : Transport) (s : SeekingHTTP) (buf : List Nat) (off : Int) : Obs :=
  let req := missRequest off buf.length
  let sParsed : SeekingHTTP := { s with urlParsed := true }
  match tr req with
  | DoResult.fail e => ⟨{ sParsed with last := some [] }, buf, 0, some e, [req]⟩
  | DoResult.ok resp =>
    if resp.statusCode = 200 ∨ resp.statusCode = 206 then
      let rfErr : Option GoError :=
        match resp.bodyErr with
        | some GoError.eof => none
        | e => e
      match rfErr with
      | some e => ⟨{ sParsed with last := some resp.body }, buf, 0, some e, [req]⟩
      | none =>
        ⟨{ sParsed with last := some resp.body, lastOffset := off }, goCopy buf resp.body,
          min resp.body.length buf.length, resp.closeErr, [req]⟩
    else ⟨{ sParsed with last := some [] }, buf, 0, some GoError.eof, [req]⟩

theorem readAtMiss_obs {s : SeekingHTTP} (tr : Transport) (buf : List Nat) (off : Int)
    (lg : List String) (h : s.urlParsed = true ∨ s.urlOk = true) :
    (readAtMiss tr s buf off lg).obs = missObs tr s buf off := by
  unfold readAtMiss missObs
  rw [newReq_ok h]
  simp only [missRequest]
  rcases htr : tr ⟨"GET", some (fmtRange off
      (((if 1024 * 1024 < buf.length then buf.length else 1024 * 1024 : Nat)) : Int))⟩
    with resp | e
  · by_cases hst : resp.statusCode = 200 ∨ resp.statusCode = 206
    · rcases hbe : resp.bodyErr with _ | e
      · simp [hst, hbe, ReadAtResult.obs, ifLtMin]
      · rcases e with _ | _ | _ | _ | _ | c <;>
          simp [hst, hbe, ReadAtResult.obs, ifLtMin]
    · simp [hst, ReadAtResult.obs]
  · simp [ReadAtResult.obs]

theorem readAtMiss_noUrl {s : SeekingHTTP} (tr : Transport) (buf : List Nat) (off : Int)
    (lg : List String) (hp : s.urlParsed = false) (ho : s.urlOk = false) :
    (readAtMiss tr s buf off lg).obs = ⟨s, buf, 0, some GoError.urlParseError, []⟩ := by
  unfold readAtMiss
  rw [newReq_fail hp ho]
  simp [ReadAtResult.obs]

theorem readAt_neg {off : Int} (tr : Transport) (s : SeekingHTTP) (buf : List Nat)
    (h : off < 0) :
    (readAt tr s buf off).obs = ⟨s, buf, 0, some GoError.eof, []⟩ := by
  unfold readAt
  simp [h, ReadAtResult.obs]

theorem readAt_hit {s : SeekingHTTP} {c buf : List Nat} {off : Int} (tr : Transport)
    (h0 : 0 ≤ off) (hc : s.last = some c) (h1 : s.lastOffset < off)
    (h2 : off + (buf.length : Int) ≤ s.lastOffset + (c.length : Int)) :
    (readAt tr s buf off).obs =
      ⟨s, goCopy buf ((c.take (off + (buf.length : Int) - s.lastOffset).toNat).drop
          (off - s.lastOffset).toNat), buf.length, none, []⟩ := by
  unfold readAt
  simp [not_lt.mpr h0, hc, h1, h2, ReadAtResult.obs]

theorem readAt_miss {s : SeekingHTTP} {buf : List Nat} {off : Int} (tr : Transport)
    (h0 : ¬ off < 0) (hmiss : isCacheHit s buf.length off = false)
    (hurl : s.urlParsed = true ∨ s.urlOk = true) :
    (readAt tr s buf off).obs = missObs tr s buf off := by
  unfold readAt
  rcases hl : s.last with _ | c
  · simp [h0, hl, readAtMiss_obs _ _ _ _ hurl]
  · have hm : ¬ (s.lastOffset < off ∧
        off + (buf.length : Int) ≤ s.lastOffset + (c.length : Int)) := by
      simpa [isCacheHit, hl] using hmiss
    by_cases h1 : s.lastOffset < off
    · have h2 : ¬ off + (buf.length : Int) ≤ s.lastOffset + (c.length : Int) :=
        fun hh => hm ⟨h1, hh⟩
      simp [h0, hl, h1, h2, readAtMiss_obs _ _ _ _ hurl]
    · simp [h0, hl, h1, readAtMiss_obs _ _ _ _ hurl]

theorem readAt_miss_noUrl {s : SeekingHTTP} {buf : List Nat} {off : Int} (tr : Transport)
    (h0 : ¬ off < 0) (hmiss : isCacheHit s buf.length off = false)
    (hp : s.urlParsed = false) (ho : s.urlOk = false) :
    (readAt tr s buf off).obs = ⟨s, buf, 0, some GoError.urlParseError, []⟩ := by
  unfold readAt
  rcases hl : s.last with _ | c
  · simp [h0, hl, readAtMiss_noUrl _ _ _ _ hp ho]
  · have hm : ¬ (s.lastOffset < off ∧
        off + (buf.length : Int) ≤ s.lastOffset + (c.length : Int)) := by
      simpa [isCacheHit, hl] using hmiss
    by_cases h1 : s.lastOffset < off
    · have h2 : ¬ off + (buf.length : Int) ≤ s.lastOffset + (c.length : Int) :=
        fun hh => hm ⟨h1, hh⟩
      simp [h0, hl, h1, h2, readAtMiss_noUrl _ _ _ _ hp ho]
    · simp [h0, hl, h1, readAtMiss_noUrl _ _ _ _ hp ho]

theorem isCacheHit_true {s : SeekingHTTP} {bufLen : Nat} {off : Int}
    (h : isCacheHit s bufLen off = true) :
    ∃ c, s.last = some c ∧ s.lastOffset < off ∧
      off + (bufLen : Int) ≤ s.lastOffset + (c.length : Int) := by
  unfold isCacheHit at h
  rcases hl : s.last with _ | c
  · rw [hl] at h
    simp at h
  · rw [hl] at h
    exact ⟨c, rfl, (of_decide_eq_true h).1, (of_decide_eq_true h).2⟩

theorem missObs_offset (tr : Transport) (s : SeekingHTTP) (buf : List Nat) (off : Int) :
    (missObs tr s buf off).state.offset = s.offset := by
  unfold missObs
  rcases htr : tr (missRequest off buf.length) with resp | e
  · by_cases hst : resp.statusCode = 200 ∨ resp.statusCode = 206
    · rcases hbe : resp.bodyErr with _ | e
      · simp [htr, hst, hbe]
      · rcases e <;> simp [htr, hst, hbe]
    · simp [htr, hst]
  · simp [htr]

theorem readAt_offset (tr : Transport) (s : SeekingHTTP) (buf : List Nat) (off : Int) :
    (readAt tr s buf off).state.offset = s.offset := by
  by_cases h0 : off < 0
  · have h := congrArg Obs.state (readAt_neg tr s buf h0)
    simpa [ReadAtResult.obs] using congrArg SeekingHTTP.offset h
  · rcases hhit : isCacheHit s buf.length off with _ | _
    · by_cases hurl : s.urlParsed = true ∨ s.urlOk = true
      · have h := congrArg Obs.state (readAt_miss tr h0 hhit hurl)
        simp only [ReadAtResult.obs] at h
        rw [h, missObs_offset]
      · push_neg at hurl
        have hp : s.urlParsed = false := by
          rcases hq : s.urlParsed with _ | _
          · rfl
          · exact absurd hq hurl.1
        have ho : s.urlOk = false := by
          rcases hq : s.urlOk with _ | _
          · rfl
          · exact absurd hq hurl.2
        have h := congrArg Obs.state (readAt_miss_noUrl tr h0 hhit hp ho)
        simpa [ReadAtResult.obs] using congrArg SeekingHTTP.offset h
    · obtain ⟨c, hc, h1, h2⟩ := isCacheHit_true hhit
      have h := congrArg Obs.state (readAt_hit tr (not_lt.mp h0) hc h1 h2)
      simpa [ReadAtResult.obs] using congrArg SeekingHTTP.offset h

theorem missObs_issued (tr : Transport) (s : SeekingHTTP) (buf : List Nat) (off : Int) :
    (missObs tr s buf off).issued = [missRequest off buf.length] := by
  unfold missObs
  rcases htr : tr (missRequest off buf.length) with resp | e
  · by_cases hst : resp.statusCode = 200 ∨ resp.statusCode = 206
    · rcases hbe : resp.bodyErr with _ | e
      · simp [htr, hst, hbe]
      · rcases e <;> simp [htr, hst, hbe]
    · simp [htr, hst]
  · simp [htr]

theorem missObs_do_fail {tr : Transport} {off : Int} {buf : List Nat} {e : GoError}
    (s : SeekingHTTP) (htr : tr (missRequest off buf.length) = DoResult.fail e) :
    missObs tr s buf off =
      ⟨{ s with urlParsed := true, last := some [] }, buf, 0, some e,
        [missRequest off buf.length]⟩ := by
  simp only [missObs]
  rw [htr]

theorem missObs_badStatus {tr : Transport} {off : Int} {buf : List Nat} {resp : Response}
    (s : SeekingHTTP) (htr : tr (missRequest off buf.length) = DoResult.ok resp)
    (hst : ¬ (resp.statusCode = 200 ∨ resp.statusCode = 206)) :
    missObs tr s buf off =
      ⟨{ s with urlParsed := true, last := some [] }, buf, 0, some GoError.eof,
        [missRequest off buf.length]⟩ := by
  simp only [missObs]
  rw [htr]
  simp [hst]

theorem missObs_success {tr : Transport} {off : Int} {buf : List Nat} {resp : Response}
    (s : SeekingHTTP) (htr : tr (missRequest off buf.length) = DoResult.ok resp)
    (hst : resp.statusCode = 200 ∨ resp.statusCode = 206)
    (hbe : resp.bodyErr = none ∨ resp.bodyErr = some GoError.eof) :
    missObs tr s buf off =
      ⟨{ s with urlParsed := true, last := some resp.body, lastOffset := off },
        goCopy buf resp.body, min resp.body.length buf.length, resp.closeErr,
        [missRequest off buf.length]⟩ := by
  simp only [missObs]
  rw [htr]
  rcases hbe with hbe | hbe <;> simp [hst, hbe]

theorem missObs_bodyErr {tr : Transport} {off : Int} {buf : List Nat} {resp : Response}
    {e : GoError} (s : SeekingHTTP) (htr : tr (missRequest off buf.length) = DoResult.ok resp)
    (hst : resp.statusCode = 200 ∨ resp.statusCode = 206)
    (hbe : resp.bodyErr = some e) (hne : e ≠ GoError.eof) :
    missObs tr s buf off =
      ⟨{ s with urlParsed := true, last := some resp.body }, buf, 0, some e,
        [missRequest off buf.length]⟩ := by
  simp only [missObs]
  rw [htr]
  rcases e with _ | _ | _ | _ | _ | c
  · exact absurd rfl hne
  all_goals simp [hst, hbe]

theorem ifMax (n : Nat) :
    (if 1024 * 1024 < n then n else 1024 * 1024) = max (1024 * 1024) n := by
  rcases Nat.lt_or_ge (1024 * 1024) n with h | h
  · rw [if_pos h, Nat.max_eq_right h.le]
  · rw [if_neg (Nat.not_lt.mpr h), Nat.max_eq_left h]

theorem missObs_strip (tr : Transport) (s : SeekingHTTP) (buf : List Nat) (off : Int) :
    (missObs tr s buf off).strip = (missObs tr (stripS s) buf off).strip := by
  unfold missObs
  rcases htr : tr (missRequest off buf.length) with resp | e
  · by_cases hst : resp.statusCode = 200 ∨ resp.statusCode = 206
    · rcases hbe : resp.bodyErr with _ | e
      · simp [htr, hst, hbe, Obs.strip, stripS]
      · rcases e <;> simp [htr, hst, hbe, Obs.strip, stripS]
    · simp [htr, hst, Obs.strip, stripS]
  · simp [htr, Obs.strip, stripS]

theorem readAt_strip (tr : Transport) (s : SeekingHTTP) (buf : List Nat) (off : Int) :
    ((readAt tr s buf off).obs).strip = ((readAt tr (stripS s) buf off).obs).strip := by
  by_cases h0 : off < 0
  · rw [readAt_neg tr s buf h0, readAt_neg tr (stripS s) buf h0]
    simp [Obs.strip, stripS]
  · rcases hhit : isCacheHit s buf.length off with _ | _
    · have hhit' : isCacheHit (stripS s) buf.length off = false := hhit
      by_cases hurl : s.urlParsed = true ∨ s.urlOk = true
      · have hurl' : (stripS s).urlParsed = true ∨ (stripS s).urlOk = true := hurl
        rw [readAt_miss tr h0 hhit hurl, readAt_miss tr h0 hhit' hurl']
        exact missObs_strip tr s buf off
      · push_neg at hurl
        have hp : s.urlParsed = false := by
          rcases hq : s.urlParsed with _ | _
          · rfl
          · exact absurd hq hurl.1
        have ho : s.urlOk = false := by
          rcases hq : s.urlOk with _ | _
          · rfl
          · exact absurd hq hurl.2
        have hp' : (stripS s).urlParsed = false := hp
        have ho' : (stripS s).urlOk = false := ho
        rw [readAt_miss_noUrl tr h0 hhit hp ho, readAt_miss_noUrl tr h0 hhit' hp' ho']
        simp [Obs.strip, stripS]
    · obtain ⟨c, hc, h1, h2⟩ := isCacheHit_true hhit
      have hc' : (stripS s).last = some c := hc
      rw [readAt_hit tr (not_lt.mp h0) hc h1 h2, readAt_hit tr (not_lt.mp h0) hc' h1 h2]
      simp [Obs.strip, stripS]

theorem read_strip (tr : Transport) (s : SeekingHTTP) (buf : List Nat) :
    ((read tr s buf).obs).strip = ((read tr (stripS s) buf).obs).strip := by
  have h := readAt_strip tr s buf s.offset
  have hbuf := congrArg Obs.buf h
  have hn := congrArg Obs.n h
  have herr := congrArg Obs.err h
  have hiss := congrArg Obs.issued h
  have hstate := congrArg Obs.state h
  simp only [ReadAtResult.obs, Obs.strip, Obs.buf, Obs.n, Obs.err, Obs.issued, Obs.state]
    at hbuf hn herr hiss hstate
  have hurlOk := congrArg SeekingHTTP.urlOk hstate
  have hurlP := congrArg SeekingHTTP.urlParsed hstate
  have hoff := congrArg SeekingHTTP.offset hstate
  have hlast := congrArg SeekingHTTP.last hstate
  have hlo := congrArg SeekingHTTP.lastOffset hstate
  simp only [stripS_urlOk, stripS_urlParsed, stripS_offset, stripS_last, stripS_lastOffset]
    at hurlOk hurlP hoff hlast hlo
  simp only [read, ReadAtResult.obs, Obs.strip]
  have hos : (stripS s).offset = s.offset := rfl
  rw [hos]
  by_cases he : (readAt tr s buf s.offset).err = none
  · have he2 : (readAt tr (stripS s) buf s.offset).err = none := herr ▸ he
    rw [if_pos he, if_pos he2, Obs.mk.injEq]
    refine ⟨?_, hbuf, hn, herr, hiss⟩
    apply stripS_ext
    · exact hurlOk
    · exact hurlP
    · simp only []
      rw [hoff, hn]
    · exact hlast
    · exact hlo
  · have he2 : ¬ (readAt tr (stripS s) buf s.offset).err = none := herr ▸ he
    rw [if_neg he, if_neg he2, Obs.mk.injEq]
    exact ⟨hstate, hbuf, hn, herr, hiss⟩

theorem seek_strip (s : SeekingHTTP) (d w : Int) :
    (seek s d w).ret = (seek (stripS s) d w).ret ∧
    (seek s d w).err = (seek (stripS s) d w).err ∧
    stripS (seek s d w).state = stripS (seek (stripS s) d w).state := by
  unfold seek
  by_cases h0 : w = 0
  · simp [h0, stripS]
  · by_cases h1 : w = 1
    · simp [h0, h1, stripS]
    · by_cases h2 : w = 2
      · simp [h0, h1, h2, stripS]
      · simp [h0, h1, h2, stripS]

theorem size_strip (tr : Transport) (s : SeekingHTTP) :
    (size tr s).ret = (size tr (stripS s)).ret ∧
    (size tr s).err = (size tr (stripS s)).err ∧
    (size tr s).issued = (size tr (stripS s)).issued ∧
    stripS (size tr s).state = stripS (size tr (stripS s)).state := by
  unfold size
  by_cases hurl : s.urlParsed = true ∨ s.urlOk = true
  · have hurl' : (stripS s).urlParsed = true ∨ (stripS s).urlOk = true := hurl
    rw [newReq_ok hurl, newReq_ok hurl']
    rcases htr : tr { method := "HEAD", rangeHeader := none } with resp | e
    · by_cases hcl : resp.contentLength < 0
      · simp [htr, hcl, stripS]
      · simp [htr, hcl, stripS]
    · simp [htr, stripS]
  · push_neg at hurl
    have hp : s.urlParsed = false := by
      rcases hq : s.urlParsed with _ | _
      · rfl
      · exact absurd hq hurl.1
    have ho : s.urlOk = false := by
      rcases hq : s.urlOk with _ | _
      · rfl
      · exact absurd hq hurl.2
    have hp' : (stripS s).urlParsed = false := hp
    have ho' : (stripS s).urlOk = false := ho
    rw [newReq_fail hp ho, newReq_fail hp' ho']
    simp [stripS]

/-- One call of the public surface: ReadAt, Read, Seek or Size. -/
inductive Op where
  | readAtOp (buf : List Nat) (off : Int)
  | readOp (buf : List Nat)
  | seekOp (offset : Int) (whence : Int)
  | sizeOp

/-- What one call returns to the caller: count, integer result (Seek and Size),
buffer contents, error, and the requests that went out on the wire. -/
structure StepOut where
  n : Nat
  ret : Int
  buf : List Nat
  err : Option GoError
  issued : List Request
  deriving DecidableEq, Repr

/-- Execute one call against the reader. -/
def step (tr : Transport) (s : SeekingHTTP) : Op → SeekingHTTP × StepOut
  | Op.readAtOp buf off =>
    let r := readAt tr s buf off
    (r.state, ⟨r.n, 0, r.buf, r.err, r.issued⟩)
  | Op.readOp buf =>
    let r := read tr s buf
    (r.state, ⟨r.n, 0, r.buf, r.err, r.issued⟩)
  | Op.seekOp d w =>
    let r := seek s d w
    (r.state, ⟨0, r.ret, [], r.err, []⟩)
  | Op.sizeOp =>
    let r := size tr s
    (r.state, ⟨0, r.ret, [], r.err, r.issued⟩)

/-- Execute a sequence of calls, collecting every outcome. -/
def run (tr : Transport) : SeekingHTTP → List Op → SeekingHTTP × List StepOut
  | s, [] => (s, [])
  | s, op :: ops =>
    let p := step tr s op
    let q := run tr p.1 ops
    (q.1, p.2 :: q.2)

theorem step_strip (tr : Transport) (s : SeekingHTTP) (op : Op) :
    (step tr s op).2 = (step tr (stripS s) op).2 ∧
    stripS (step tr s op).1 = stripS (step tr (stripS s) op).1 := by
  rcases op with ⟨buf, off⟩ | ⟨buf⟩ | ⟨d, w⟩ | _
  · have h := readAt_strip tr s buf off
    have hbuf := congrArg Obs.buf h
    have hn := congrArg Obs.n h
    have herr := congrArg Obs.err h
    have hiss := congrArg Obs.issued h
    have hstate := congrArg Obs.state h
    simp only [ReadAtResult.obs, Obs.strip, Obs.buf, Obs.n, Obs.err, Obs.issued, Obs.state]
      at hbuf hn herr hiss hstate
    exact ⟨by simp [step, hbuf, hn, herr, hiss], hstate⟩
  · have h := read_strip tr s buf
    have hbuf := congrArg Obs.buf h
    have hn := congrArg Obs.n h
    have herr := congrArg Obs.err h
    have hiss := congrArg Obs.issued h
    have hstate := congrArg Obs.state h
    simp only [ReadAtResult.obs, Obs.strip, Obs.buf, Obs.n, Obs.err, Obs.issued, Obs.state]
      at hbuf hn herr hiss hstate
    exact ⟨by simp [step, hbuf, hn, herr, hiss], hstate⟩
  · obtain ⟨hret, herr, hstate⟩ := seek_strip s d w
    exact ⟨by simp [step, hret, herr], hstate⟩
  · obtain ⟨hret, herr, hiss, hstate⟩ := size_strip tr s
    exact ⟨by simp [step, hret, herr, hiss], hstate⟩

theorem run_strip (tr : Transport) (ops : List Op) :
    ∀ s : SeekingHTTP,
      (run tr s ops).2 = (run tr (stripS s) ops).2 ∧
      stripS (run tr s ops).1 = stripS (run tr (stripS s) ops).1 := by
  induction ops with
  | nil => intro s; exact ⟨rfl, rfl⟩
  | cons op ops ih =>
    intro s
    obtain ⟨ho, hs⟩ := step_strip tr s op
    obtain ⟨ih1, ih2⟩ := ih (step tr s op).1
    obtain ⟨ih1s, ih2s⟩ := ih (step tr (stripS s) op).1
    have hmid : (run tr (stripS (step tr s op).1) ops).2 =
        (run tr (stripS (step tr (stripS s) op).1) ops).2 := by rw [hs]
    have hmid2 : stripS (run tr (stripS (step tr s op).1) ops).1 =
        stripS (run tr (stripS (step tr (stripS s) op).1) ops).1 := by rw [hs]
    constructor
    · show ((run tr (step tr s op).1 ops).1, (step tr s op).2 :: (run tr (step tr s op).1 ops).2).2
        = _
      simp only [run]
      rw [ho]
      have : (run tr (step tr s op).1 ops).2 = (run tr (step tr (stripS s) op).1 ops).2 :=
        ih1.trans (hmid.trans ih1s.symm)
      rw [this]
    · simp only [run]
      exact ih2.trans (hmid2.trans ih2s.symm)

/-- A transport that always fails with a plain transport error. -/
def trFail : Transport := fun _ => DoResult.fail (GoError.transportError 0)

/-- The response of the 404 transport: a not-found status that nevertheless
carries a small body, and no content length. -/
def resp404 : Response :=
  { statusCode := 404, body := [7, 7, 7], bodyErr := some GoError.eof,
    closeErr := none, contentLength := -1 }

/-- A transport that answers 404 to everything. -/
def tr404 : Transport := fun _ => DoResult.ok resp404

/-- A reader that already holds the four bytes 10,11,12,13 cached at offset 0. -/
def sCache : SeekingHTTP :=
  { urlOk := true, urlParsed := true, offset := 0, last := some [10, 11, 12, 13],
    lastOffset := 0, hasLogger := false }

/-- The 20-byte demo resource "0123456789abcdefghij" of the repository tests. -/
def demoBytes : List Nat :=
  [48, 49, 50, 51, 52, 53, 54, 55, 56, 57, 97, 98, 99, 100, 101, 102, 103, 104, 105, 106]

/-- The response serving the whole demo resource from offset 0. -/
def respDemo : Response :=
  { statusCode := 200, body := demoBytes, bodyErr := some GoError.eof,
    closeErr := none, contentLength := 20 }

/-- A transport serving the 20-byte demo resource for the two ranges the demo
scenario asks for, like the mock client of the repository tests. -/
def demoDo : Transport := fun r =>
  if r.rangeHeader = some "bytes=0-1048575" then DoResult.ok respDemo
  else if r.rangeHeader = some "bytes=20-1048595" then
    DoResult.ok { statusCode := 200, body := [], bodyErr := some GoError.eof,
                  closeErr := none, contentLength := 20 }
  else DoResult.fail (GoError.transportError 0)

/-- A fresh 10-byte all-zero buffer. -/
def demoBuf : List Nat := List.replicate 10 0

/-- C1, the claim exactly as stated, at offset = cacheStart: the cached span
[0, 4) fully covers the requested span [0, 2), yet ReadAt issues one network
call instead of zero. -/
theorem C1_counterexample :
    sCache.last = some [10, 11, 12, 13] ∧ sCache.lastOffset ≤ 0 ∧
    (0 : Int) + 2 ≤ sCache.lastOffset + 4 ∧
    (readAt trFail sCache [0, 0] 0).issued.length = 1 := by decide

/-- C1 (amended): if a prior fetch's cached span fully covers
[offset, offset + len(buffer)) and offset lies strictly past cacheStart, then
ReadAt issues zero network calls and returns exactly the corresponding cached
bytes, with count len(buffer) and no error. -/
theorem C1_cache_hit_amended (tr : Transport) (s : SeekingHTTP) (buf c : List Nat)
    (off : Int) (h0 : 0 ≤ off) (hc : s.last = some c) (h1 : s.lastOffset < off)
    (h2 : off + (buf.length : Int) ≤ s.lastOffset + (c.length : Int)) :
    (readAt tr s buf off).issued = [] ∧ (readAt tr s buf off).err = none ∧
    (readAt tr s buf off).n = buf.length ∧
    (readAt tr s buf off).buf =
      (c.take (off + (buf.length : Int) - s.lastOffset).toNat).drop
        (off - s.lastOffset).toNat := by
  have h := readAt_hit tr h0 hc h1 h2
  have hslice : ((c.take (off + (buf.length : Int) - s.lastOffset).toNat).drop
      (off - s.lastOffset).toNat).length = buf.length := by
    simp only [List.length_drop, List.length_take]
    omega
  refine ⟨congrArg Obs.issued h, congrArg Obs.err h, congrArg Obs.n h, ?_⟩
  have hb := congrArg Obs.buf h
  simp only [ReadAtResult.obs] at hb
  rw [hb]
  exact goCopy_of_length_eq hslice

/-- Witness for C1: a concrete strict-interior cache hit. -/
theorem C1_cache_hit_amended_witness :
    ((0 : Int) ≤ 1 ∧ sCache.last = some [10, 11, 12, 13] ∧ sCache.lastOffset < 1 ∧
      (1 : Int) + (([0, 0] : List Nat).length : Int) ≤ sCache.lastOffset + 4) ∧
    (readAt trFail sCache [0, 0] 1).issued = [] ∧
    (readAt trFail sCache [0, 0] 1).err = none ∧
    (readAt trFail sCache [0, 0] 1).n = 2 ∧
    (readAt trFail sCache [0, 0] 1).buf = [11, 12] := by
  refine ⟨⟨by decide, by decide, by decide, by decide⟩, ?_⟩
  have h := C1_cache_hit_amended trFail sCache [0, 0] [10, 11, 12, 13] 1
    (by decide) (by decide) (by decide) (by decide)
  obtain ⟨hi, he, hn, hb⟩ := h
  refine ⟨hi, he, hn, ?_⟩
  rw [hb]
  decide

/-- C2: a ReadAt starting exactly at cacheStart is treated as a miss (one
network call) even when the whole request fits in the cache; and any zero-call,
error-free ReadAt at a non-negative offset must have started strictly past
cacheStart. -/
theorem C2_exact_start_misses :
    (∀ (tr : Transport) (s : SeekingHTTP) (buf c : List Nat) (off : Int),
      s.last = some c → off = s.lastOffset → 0 ≤ off →
      (s.urlParsed = true ∨ s.urlOk = true) → buf.length ≤ c.length →
      (readAt tr s buf off).issued.length = 1) ∧
    (∀ (tr : Transport) (s : SeekingHTTP) (buf : List Nat) (off : Int),
      0 ≤ off → (readAt tr s buf off).issued = [] → (readAt tr s buf off).err = none →
      s.lastOffset < off) := by
  constructor
  · intro tr s buf c off hc hoff h0 hurl hcov
    have hmiss : isCacheHit s buf.length off = false := by
      unfold isCacheHit
      rw [hc]
      simp
      intro hlt
      omega
    have h := readAt_miss tr (not_lt.mpr h0) hmiss hurl
    have hiss := congrArg Obs.issued h
    simp only [ReadAtResult.obs] at hiss
    rw [hiss, missObs_issued]
    rfl
  · intro tr s buf off h0 hiss herr
    rcases hhit : isCacheHit s buf.length off with _ | _
    · by_cases hurl : s.urlParsed = true ∨ s.urlOk = true
      · have h := readAt_miss tr (not_lt.mpr h0) hhit hurl
        have hi := congrArg Obs.issued h
        simp only [ReadAtResult.obs] at hi
        rw [hiss, missObs_issued] at hi
        exact absurd hi.symm (by simp)
      · push_neg at hurl
        have hp : s.urlParsed = false := by
          rcases hq : s.urlParsed with _ | _
          · rfl
          · exact absurd hq hurl.1
        have ho : s.urlOk = false := by
          rcases hq : s.urlOk with _ | _
          · rfl
          · exact absurd hq hurl.2
        have h := readAt_miss_noUrl tr (not_lt.mpr h0) hhit hp ho
        have he := congrArg Obs.err h
        simp only [ReadAtResult.obs] at he
        rw [herr] at he
        exact absurd he.symm (by simp)
    · obtain ⟨c, hc, h1, h2⟩ := isCacheHit_true hhit
      exact h1

/-- Witness for C2: at offset = cacheStart = 0 one call goes out; and the
zero-call error-free hit at offset 1 indeed has 0 < 1. -/
theorem C2_exact_start_misses_witness :
    (readAt trFail sCache [0, 0] 0).issued.length = 1 ∧ sCache.lastOffset < 1 :=
  ⟨C2_exact_start_misses.1 trFail sCache [0, 0] [10, 11, 12, 13] 0
      (by decide) (by decide) (by decide) (by decide) (by decide),
    C2_exact_start_misses.2 trFail sCache [0, 0] 1 (by decide) (by decide) (by decide)⟩

/-- C3, the claim exactly as stated, fails twice: with an unparseable URL a
non-hit ReadAt issues zero GETs, and on a 404 response the cache is emptied but
not replaced by the response body, and cacheStart stays at its old value instead
of becoming the requested offset. -/
theorem C3_counterexample :
    ((readAt trFail (New false) [0, 0, 0] 5).issued = [] ∧
      (readAt trFail (New false) [0, 0, 0] 5).err = some GoError.urlParseError) ∧
    (tr404 { method := "GET", rangeHeader := some (fmtRange 5 1048576) } =
        DoResult.ok resp404 ∧
      resp404.body = [7, 7, 7] ∧
      (readAt tr404 (New true) [0, 0, 0] 5).state.last = some [] ∧
      (readAt tr404 (New true) [0, 0, 0] 5).state.lastOffset = 0) := by decide

/-- C3 (amended): for every non-hit ReadAt with non-negative offset on a reader
whose URL parses, exactly one GET goes out with Range
bytes=offset-(offset+wanted-1), wanted = max(len(buffer), 1 MiB); and whenever
the response has status 200 or 206 and its body is read without a mid-body
error, the cache is replaced wholesale by the response body with
cacheStart = offset and min(len(response), len(buffer)) bytes are copied into
the caller's buffer. -/
theorem C3_miss_amended (tr : Transport) (s : SeekingHTTP) (buf : List Nat) (off : Int)
    (h0 : 0 ≤ off) (hmiss : isCacheHit s buf.length off = false)
    (hurl : s.urlParsed = true ∨ s.urlOk = true) :
    (readAt tr s buf off).issued =
      [{ method := "GET",
         rangeHeader := some ("bytes=" ++ toString off ++ "-" ++
           toString (off + ((max (1024 * 1024) buf.length : Nat) : Int) - 1)) }] ∧
    (∀ resp : Response, tr (missRequest off buf.length) = DoResult.ok resp →
      (resp.statusCode = 200 ∨ resp.statusCode = 206) →
      (resp.bodyErr = none ∨ resp.bodyErr = some GoError.eof) →
      (readAt tr s buf off).state.last = some resp.body ∧
      (readAt tr s buf off).state.lastOffset = off ∧
      (readAt tr s buf off).n = min resp.body.length buf.length ∧
      (readAt tr s buf off).buf = goCopy buf resp.body) := by
  have h := readAt_miss tr (not_lt.mpr h0) hmiss hurl
  constructor
  · have hiss := congrArg Obs.issued h
    simp only [ReadAtResult.obs] at hiss
    rw [hiss, missObs_issued]
    unfold missRequest
    rw [ifMax]
    have hw : ((max (1024 * 1024) buf.length : Nat) : Int) ≠ 0 := by
      have hle : 1024 * 1024 ≤ max (1024 * 1024) buf.length := Nat.le_max_left _ _
      omega
    rw [fmtRange_of_ne_zero hw]
    have harg : off + (((max (1024 * 1024) buf.length : Nat) : Int) - 1) =
        off + ((max (1024 * 1024) buf.length : Nat) : Int) - 1 := by ring
    rw [harg]
  · intro resp htr hst hbe
    rw [missObs_success s htr hst hbe] at h
    have h1 := congrArg Obs.state h
    simp only [ReadAtResult.obs] at h1
    refine ⟨?_, ?_, congrArg Obs.n h, congrArg Obs.buf h⟩
    · rw [h1]
    · rw [h1]

/-- Witness for C3: the demo fetch at offset 0 issues the 1 MiB range request
and caches the whole demo resource at cacheStart 0. -/
theorem C3_miss_amended_witness :
    ((0 : Int) ≤ 0 ∧ isCacheHit (New true) demoBuf.length 0 = false ∧
      ((New true).urlParsed = true ∨ (New true).urlOk = true)) ∧
    (readAt demoDo (New true) demoBuf 0).issued =
      [{ method := "GET",
         rangeHeader := some ("bytes=" ++ toString (0 : Int) ++ "-" ++
           toString ((0 : Int) + ((max (1024 * 1024) demoBuf.length : Nat) : Int) - 1)) }] ∧
    (readAt demoDo (New true) demoBuf 0).state.last = some respDemo.body ∧
    (readAt demoDo (New true) demoBuf 0).state.lastOffset = 0 ∧
    (readAt demoDo (New true) demoBuf 0).n = min respDemo.body.length demoBuf.length ∧
    (readAt demoDo (New true) demoBuf 0).buf = goCopy demoBuf respDemo.body := by
  have h := C3_miss_amended demoDo (New true) demoBuf 0 (by decide) (by decide) (by decide)
  exact ⟨⟨by decide, by decide, by decide⟩, h.1,
    h.2 respDemo (by decide) (by decide) (by decide)⟩

/-- C4: with a transport whose own error values never collide with the io.EOF
sentinel, ReadAt returns (0, io.EOF) in exactly two situations: a negative
offset (with zero network calls), or a received response whose status is
neither 200 nor 206; and no retry ever happens (at most one request per call). -/
theorem C4_eof_exactly_two (tr : Transport) (s : SeekingHTTP) (buf : List Nat) (off : Int)
    (hwb : WellBehaved tr) :
    (((readAt tr s buf off).n = 0 ∧ (readAt tr s buf off).err = some GoError.eof) ↔
      (off < 0 ∨ ∃ resp : Response, (readAt tr s buf off).issued ≠ [] ∧
        tr (missRequest off buf.length) = DoResult.ok resp ∧
        resp.statusCode ≠ 200 ∧ resp.statusCode ≠ 206)) ∧
    (off < 0 → (readAt tr s buf off).issued = []) ∧
    (readAt tr s buf off).issued.length ≤ 1 := by
  by_cases h0 : off < 0
  · have h := readAt_neg tr s buf h0
    have hn := congrArg Obs.n h
    have he := congrArg Obs.err h
    have hi := congrArg Obs.issued h
    simp only [ReadAtResult.obs] at hn he hi
    refine ⟨⟨fun _ => Or.inl h0, fun _ => ⟨hn, he⟩⟩, fun _ => hi, by rw [hi]; simp⟩
  · have hno : off < 0 → (readAt tr s buf off).issued = [] := fun hc => absurd hc h0
    rcases hhit : isCacheHit s buf.length off with _ | _
    · by_cases hurl : s.urlParsed = true ∨ s.urlOk = true
      · have h := readAt_miss tr h0 hhit hurl
        have hi := congrArg Obs.issued h
        simp only [ReadAtResult.obs] at hi
        rw [missObs_issued] at hi
        have hlen : (readAt tr s buf off).issued.length ≤ 1 := by rw [hi]; simp
        refine ⟨?_, hno, hlen⟩
        rcases htr : tr (missRequest off buf.length) with resp | e
        · by_cases hst : resp.statusCode = 200 ∨ resp.statusCode = 206
          · have hcl : resp.closeErr ≠ some GoError.eof := by
              have hw := hwb (missRequest off buf.length)
              rw [htr] at hw
              exact hw
            constructor
            · rintro ⟨hn2, he2⟩
              exfalso
              rcases hbe : resp.bodyErr with _ | e
              · rw [missObs_success s htr hst (Or.inl hbe)] at h
                have he3 := congrArg Obs.err h
                simp only [ReadAtResult.obs] at he3
                rw [he2] at he3
                exact hcl he3.symm
              · by_cases heof : e = GoError.eof
                · subst heof
                  rw [missObs_success s htr hst (Or.inr hbe)] at h
                  have he3 := congrArg Obs.err h
                  simp only [ReadAtResult.obs] at he3
                  rw [he2] at he3
                  exact hcl he3.symm
                · rw [missObs_bodyErr s htr hst hbe heof] at h
                  have he3 := congrArg Obs.err h
                  simp only [ReadAtResult.obs] at he3
                  rw [he2] at he3
                  injection he3 with hh
                  exact heof hh.symm
            · rintro (hr | ⟨resp2, hiss2, htr2, h200, h206⟩)
              · exact absurd hr h0
              · injection htr2 with hre
                subst hre
                rcases hst with hst | hst
                · exact absurd hst h200
                · exact absurd hst h206
          · rw [missObs_badStatus s htr hst] at h
            have hn2 := congrArg Obs.n h
            have he2 := congrArg Obs.err h
            simp only [ReadAtResult.obs] at hn2 he2
            push_neg at hst
            exact ⟨fun _ => Or.inr ⟨resp, by rw [hi]; simp, rfl, hst.1, hst.2⟩,
              fun _ => ⟨hn2, he2⟩⟩
        · have hne : e ≠ GoError.eof := by
            have hw := hwb (missRequest off buf.length)
            rw [htr] at hw
            exact hw
          rw [missObs_do_fail s htr] at h
          have he2 := congrArg Obs.err h
          simp only [ReadAtResult.obs] at he2
          constructor
          · rintro ⟨_, he3⟩
            rw [he3] at he2
            injection he2 with hh
            exact absurd hh.symm hne
          · rintro (hr | ⟨resp2, _, htr2, _, _⟩)
            · exact absurd hr h0
            · exact absurd htr2 (by simp)
      · push_neg at hurl
        have hp : s.urlParsed = false := by
          rcases hq : s.urlParsed with _ | _
          · rfl
          · exact absurd hq hurl.1
        have ho : s.urlOk = false := by
          rcases hq : s.urlOk with _ | _
          · rfl
          · exact absurd hq hurl.2
        have h := readAt_miss_noUrl tr h0 hhit hp ho
        have hi := congrArg Obs.issued h
        have he := congrArg Obs.err h
        simp only [ReadAtResult.obs] at hi he
        refine ⟨?_, hno, by rw [hi]; simp⟩
        constructor
        · rintro ⟨_, he2⟩
          rw [he2] at he
          exact absurd he (by decide)
        · rintro (hr | ⟨resp2, hiss2, _, _, _⟩)
          · exact absurd hr h0
          · exact absurd hi hiss2
    · obtain ⟨c, hc, h1, h2⟩ := isCacheHit_true hhit
      have h := readAt_hit tr (not_lt.mp h0) hc h1 h2
      have hi := congrArg Obs.issued h
      have he := congrArg Obs.err h
      simp only [ReadAtResult.obs] at hi he
      refine ⟨?_, hno, by rw [hi]; simp⟩
      constructor
      · rintro ⟨_, he2⟩
        rw [he2] at he
        exact absurd he (by decide)
      · rintro (hr | ⟨resp2, hiss2, _, _, _⟩)
        · exact absurd hr h0
        · exact absurd hi hiss2

/-- Witness for C4: the 404 transport is well behaved, a ReadAt at offset 7
returns (0, io.EOF) there, and the characterization instantiates. -/
theorem C4_eof_exactly_two_witness :
    (((readAt tr404 (New true) [0] 7).n = 0 ∧
        (readAt tr404 (New true) [0] 7).err = some GoError.eof) ↔
      ((7 : Int) < 0 ∨ ∃ resp : Response, (readAt tr404 (New true) [0] 7).issued ≠ [] ∧
        tr404 (missRequest 7 ([0] : List Nat).length) = DoResult.ok resp ∧
        resp.statusCode ≠ 200 ∧ resp.statusCode ≠ 206)) ∧
    ((7 : Int) < 0 → (readAt tr404 (New true) [0] 7).issued = []) ∧
    (readAt tr404 (New true) [0] 7).issued.length ≤ 1 :=
  C4_eof_exactly_two tr404 (New true) [0] 7
    (fun req => by simp [tr404, resp404])

/-- C5: Read advances the cursor by exactly the returned count on success and
leaves it unchanged on failure; and over the 20-byte demo resource two 10-byte
Reads return the first and second halves leaving the cursor at 20, and a third
returns 0 bytes with no error. -/
theorem C5_read_cursor :
    (∀ (tr : Transport) (s : SeekingHTTP) (buf : List Nat),
      ((read tr s buf).err = none →
        (read tr s buf).state.offset = s.offset + ((read tr s buf).n : Int)) ∧
      ((read tr s buf).err ≠ none → (read tr s buf).state.offset = s.offset)) ∧
    ((read demoDo (New true) demoBuf).buf = demoBytes.take 10 ∧
      (read demoDo (New true) demoBuf).n = 10 ∧
      (read demoDo (New true) demoBuf).err = none ∧
      (read demoDo (New true) demoBuf).state.offset = 10 ∧
      (read demoDo (read demoDo (New true) demoBuf).state demoBuf).buf =
        demoBytes.drop 10 ∧
      (read demoDo (read demoDo (New true) demoBuf).state demoBuf).n = 10 ∧
      (read demoDo (read demoDo (New true) demoBuf).state demoBuf).err = none ∧
      (read demoDo (read demoDo (New true) demoBuf).state demoBuf).state.offset = 20 ∧
      (read demoDo (read demoDo (read demoDo (New true) demoBuf).state demoBuf).state
        demoBuf).n = 0 ∧
      (read demoDo (read demoDo (read demoDo (New true) demoBuf).state demoBuf).state
        demoBuf).err = none ∧
      (read demoDo (read demoDo (read demoDo (New true) demoBuf).state demoBuf).state
        demoBuf).state.offset = 20) := by
  constructor
  · intro tr s buf
    have hoff := readAt_offset tr s buf s.offset
    constructor
    · intro he
      have he2 : (readAt tr s buf s.offset).err = none := he
      simp only [read, if_pos he2]
      rw [hoff]
    · intro he
      have he2 : ¬ (readAt tr s buf s.offset).err = none := he
      simp only [read, if_neg he2]
      exact hoff
  · decide

/-- Witness for C5: the first demo Read succeeds and moves the cursor from 0 by
exactly the count it returned. -/
theorem C5_read_cursor_witness :
    (read demoDo (New true) demoBuf).err = none ∧
    (read demoDo (New true) demoBuf).state.offset =
      (New true).offset + ((read demoDo (New true) demoBuf).n : Int) :=
  ⟨by decide, (C5_read_cursor.1 demoDo (New true) demoBuf).1 (by decide)⟩

/-- C6: Seek with whence 0 sets the cursor to delta and returns it, whence 1
adds delta and returns the sum, whence 2 fails with the distinct
not-implemented error without touching the cursor, and any other whence fails
with the invalid-argument error. -/
theorem C6_seek_modes (s : SeekingHTTP) (d : Int) :
    ((seek s d 0).state = { s with offset := d } ∧ (seek s d 0).ret = d ∧
      (seek s d 0).err = none) ∧
    ((seek s d 1).state = { s with offset := s.offset + d } ∧
      (seek s d 1).ret = s.offset + d ∧ (seek s d 1).err = none) ∧
    ((seek s d 2).state = s ∧ (seek s d 2).ret = 0 ∧
      (seek s d 2).err = some GoError.notImplYet) ∧
    (∀ w : Int, w ≠ 0 → w ≠ 1 → w ≠ 2 →
      (seek s d w).state = s ∧ (seek s d w).ret = 0 ∧
      (seek s d w).err = some GoError.errInvalid) := by
  refine ⟨?_, ?_, ?_, ?_⟩
  · simp [seek]
  · simp [seek]
  · simp [seek]
  · intro w hw0 hw1 hw2
    simp [seek, hw0, hw1, hw2]

/-- Witness for C6: whence 7 is invalid. -/
theorem C6_seek_modes_witness :
    ((7 : Int) ≠ 0 ∧ (7 : Int) ≠ 1 ∧ (7 : Int) ≠ 2) ∧
    (seek (New true) 5 7).state = New true ∧ (seek (New true) 5 7).ret = 0 ∧
    (seek (New true) 5 7).err = some GoError.errInvalid :=
  ⟨⟨by decide, by decide, by decide⟩,
    (C6_seek_modes (New true) 5).2.2.2 7 (by decide) (by decide) (by decide)⟩

/-- C7: Size issues exactly one HEAD request; a transport error or a negative
(absent) content length is surfaced as an error together with the count 0,
never as a silent valid size 0, and a non-negative content length is returned
with no error. -/
theorem C7_size_head (tr : Transport) (s : SeekingHTTP)
    (hurl : s.urlParsed = true ∨ s.urlOk = true) :
    (size tr s).issued = [{ method := "HEAD", rangeHeader := none }] ∧
    (∀ e, tr { method := "HEAD", rangeHeader := none } = DoResult.fail e →
      (size tr s).err = some e ∧ (size tr s).ret = 0) ∧
    (∀ resp, tr { method := "HEAD", rangeHeader := none } = DoResult.ok resp →
      (0 ≤ resp.contentLength →
        (size tr s).ret = resp.contentLength ∧ (size tr s).err = none) ∧
      (resp.contentLength < 0 →
        (size tr s).err = some GoError.noContentLength ∧ (size tr s).ret = 0)) := by
  simp only [size]
  rw [newReq_ok hurl]
  rcases htr : tr { method := "HEAD", rangeHeader := none } with resp | e
  · by_cases hcl : resp.contentLength < 0
    · refine ⟨by simp [htr, hcl], ?_, ?_⟩
      · intro e he
        exact absurd he (by simp)
      · intro resp2 hre
        injection hre with hre2
        subst hre2
        refine ⟨fun hge => absurd hcl (not_lt.mpr hge), fun _ => by simp [htr, hcl]⟩
    · refine ⟨by simp [htr, hcl], ?_, ?_⟩
      · intro e he
        exact absurd he (by simp)
      · intro resp2 hre
        injection hre with hre2
        subst hre2
        refine ⟨fun _ => by simp [htr, hcl], fun hlt => absurd hlt hcl⟩
  · refine ⟨by simp [htr], ?_, ?_⟩
    · intro e2 he
      injection he with he2
      subst he2
      simp [htr]
    · intro resp2 hre
      exact absurd hre (by simp)

/-- Witness for C7: the 404 transport reports no content length, and Size
returns the explicit error with count 0, plus exactly one HEAD went out. -/
theorem C7_size_head_witness :
    ((New true).urlParsed = true ∨ (New true).urlOk = true) ∧
    (size tr404 (New true)).issued = [{ method := "HEAD", rangeHeader := none }] ∧
    (size tr404 (New true)).err = some GoError.noContentLength ∧
    (size tr404 (New true)).ret = 0 := by
  have h := C7_size_head tr404 (New true) (by decide)
  exact ⟨by decide, h.1, (h.2.2 resp404 rfl).2 (by decide)⟩

/-- C8: on the 200/206 fetch path, a body end-of-data signal arriving when the
full requested length was delivered is suppressed (the error is nil); and the
io.EOF signal never escapes this path at all, so callers can see it from here
only when fewer bytes than requested were available (vacuously). -/
theorem C8_eof_suppressed (tr : Transport) (s : SeekingHTTP) (buf : List Nat) (off : Int)
    (resp : Response) (h0 : 0 ≤ off) (hmiss : isCacheHit s buf.length off = false)
    (hurl : s.urlParsed = true ∨ s.urlOk = true)
    (htr : tr (missRequest off buf.length) = DoResult.ok resp)
    (hst : resp.statusCode = 200 ∨ resp.statusCode = 206)
    (hclose : resp.closeErr = none) :
    (resp.bodyErr = some GoError.eof → buf.length ≤ resp.body.length →
      (readAt tr s buf off).n = buf.length ∧ (readAt tr s buf off).err = none) ∧
    (∀ e, (readAt tr s buf off).err = some e → e ≠ GoError.eof) := by
  have h := readAt_miss tr (not_lt.mpr h0) hmiss hurl
  constructor
  · intro hbe hlen
    rw [missObs_success s htr hst (Or.inr hbe)] at h
    have hn := congrArg Obs.n h
    have he := congrArg Obs.err h
    simp only [ReadAtResult.obs] at hn he
    rw [hclose] at he
    exact ⟨by rw [hn]; exact Nat.min_eq_right hlen, he⟩
  · intro e he2
    rcases hbe : resp.bodyErr with _ | e3
    · rw [missObs_success s htr hst (Or.inl hbe)] at h
      have he := congrArg Obs.err h
      simp only [ReadAtResult.obs] at he
      rw [hclose] at he
      rw [he2] at he
      exact absurd he (by simp)
    · by_cases heof : e3 = GoError.eof
      · subst heof
        rw [missObs_success s htr hst (Or.inr hbe)] at h
        have he := congrArg Obs.err h
        simp only [ReadAtResult.obs] at he
        rw [hclose] at he
        rw [he2] at he
        exact absurd he (by simp)
      · rw [missObs_bodyErr s htr hst hbe heof] at h
        have he := congrArg Obs.err h
        simp only [ReadAtResult.obs] at he
        rw [he2] at he
        injection he with hh
        rw [hh]
        exact heof

/-- Witness for C8: the demo fetch delivers all 10 requested bytes with a clean
end-of-body signal, and ReadAt reports (10, nil). -/
theorem C8_eof_suppressed_witness :
    (respDemo.bodyErr = some GoError.eof ∧ demoBuf.length ≤ respDemo.body.length ∧
      respDemo.closeErr = none ∧
      demoDo (missRequest 0 demoBuf.length) = DoResult.ok respDemo) ∧
    (readAt demoDo (New true) demoBuf 0).n = demoBuf.length ∧
    (readAt demoDo (New true) demoBuf 0).err = none := by
  have h := C8_eof_suppressed demoDo (New true) demoBuf 0 respDemo
    (by decide) (by decide) (by decide) (by decide) (by decide) rfl
  exact ⟨⟨rfl, by decide, rfl, by decide⟩, h.1 rfl (by decide)⟩

/-- C9: attaching or detaching the logger changes nothing observable: over any
transport, any starting state and any sequence of ReadAt, Read, Seek and Size
calls, the two runs return identical outcome lists (counts, integer results,
buffer contents, errors, wire requests) and identical final states up to the
logger field itself. -/
theorem C9_logger_no_effect (tr : Transport) (s : SeekingHTTP) (ops : List Op)
    (b1 b2 : Bool) :
    (run tr { s with hasLogger := b1 } ops).2 = (run tr { s with hasLogger := b2 } ops).2 ∧
    stripS (run tr { s with hasLogger := b1 } ops).1 =
      stripS (run tr { s with hasLogger := b2 } ops).1 := by
  have h1 := run_strip tr ops { s with hasLogger := b1 }
  have h2 := run_strip tr ops { s with hasLogger := b2 }
  have hs : stripS { s with hasLogger := b1 } = stripS { s with hasLogger := b2 } := rfl
  rw [hs] at h1
  exact ⟨h1.1.trans h2.1.symm, h1.2.trans h2.2.symm⟩

/-- The transport of the C10 run: a successful fetch of eight bytes at offset
0, then a fetch at offset 100 whose body delivers six bytes and dies with a
mid-body transport error. -/
def trC10 : Transport := fun r =>
  if r.rangeHeader = some "bytes=0-1048575" then
    DoResult.ok { statusCode := 200, body := [1, 2, 3, 4, 5, 6, 7, 8],
                  bodyErr := some GoError.eof, closeErr := none, contentLength := -1 }
  else if r.rangeHeader = some "bytes=100-1048675" then
    DoResult.ok { statusCode := 200, body := [9, 9, 9, 9, 9, 9],
                  bodyErr := some (GoError.transportError 3), closeErr := none,
                  contentLength := -1 }
  else DoResult.fail (GoError.transportError 0)

/-- First C10 step: cache the eight bytes at offset 0. -/
def c10r1 : ReadAtResult := readAt trC10 (New true) [0, 0, 0, 0] 0

/-- Second C10 step: a fetch at offset 100 that fails mid-body. -/
def c10r2 : ReadAtResult := readAt trC10 c10r1.state [0, 0, 0, 0] 100

/-- Third C10 step: a ReadAt at offset 3 after the failed fetch. -/
def c10r3 : ReadAtResult := readAt trC10 c10r2.state [0, 0] 3

/-- C10 fails on the code: when the response body errors mid-read, ReadAt
returns the error but leaves the partially delivered bytes in the cache and
does not update cacheStart, so the cache is neither empty nor the body of the
most recent successful fetch, and the next ReadAt is served stale bytes from
the failed fetch with no network call and no error. -/
theorem C10_stale_cache_bug :
    c10r1.err = none ∧ c10r1.state.last = some [1, 2, 3, 4, 5, 6, 7, 8] ∧
    c10r1.state.lastOffset = 0 ∧
    c10r2.err = some (GoError.transportError 3) ∧
    c10r2.state.last = some [9, 9, 9, 9, 9, 9] ∧ c10r2.state.lastOffset = 0 ∧
    c10r3.issued = [] ∧ c10r3.err = none ∧ c10r3.buf = [9, 9] := by decide

end SeekingHttp
